import Mathlib

/-!
Shallow embedding of the aggregation and filtering pipeline of `src/mybill.py`
(a pandas/plotly/streamlit bill-visualization dashboard), together with proofs
about the grouping, partitioning and ordering behaviour of that pipeline.

Modelling conventions:
* a pandas DataFrame row becomes a `Record`; a DataFrame becomes `List Record`
  (pandas preserves row order, so a list is the faithful shape);
* a nullable (NaN-able) string cell becomes `Option String`;
* `金额` (amount) is modelled as `Int`; `金额_abs` is `amountAbs`;
* `df["日期"].dt.year` / `.dt.to_period("M").astype(str)` become the `year`
  and `month` components of a record plus the `monthBucket` string builder;
* Python string comparison (used by pandas when it sorts group keys) is
  lexicographic on code points; `lexLtB` / `strLt` embed exactly that order;
* `groupby(col)[x].sum()` with pandas defaults sorts the group keys ascending
  and drops rows whose key is NaN: `groupAndSum` embeds both behaviours.
-/

/-- Lexicographic (code-point) comparison of character lists: the order Python
uses for `str` comparison and pandas uses when sorting string group keys. -/
def lexLtB : List Char → List Char → Bool
  | [], [] => false
  | [], _ :: _ => true
  | _ :: _, [] => false
  | a :: as, b :: bs =>
    if a.val.toNat < b.val.toNat then true
    else if b.val.toNat < a.val.toNat then false
    else lexLtB as bs

/-- Strict lexicographic order on strings (Python's `s < t`). -/
def strLt (s t : String) : Prop := lexLtB s.data t.data = true

instance strLt.decidable (s t : String) : Decidable (strLt s t) :=
  inferInstanceAs (Decidable (lexLtB s.data t.data = true))

/-- Non-strict lexicographic order on strings: `s ≤ t` iff not `t < s`. -/
def strLe (s t : String) : Prop := lexLtB t.data s.data = false

instance strLe.decidable (s t : String) : Decidable (strLe s t) :=
  inferInstanceAs (Decidable (lexLtB t.data s.data = false))

/-- One parsed bill row after the preprocessing of `load_data`
(`src/mybill.py` lines 34-47): the raw columns `金额` (amount), `收支类型`
(flow type), `类别` (category), `二级分类` (sub-category), `标签` (tag),
plus the derived date components used by the derived columns `年份` (year)
and `月份` (month bucket). String cells other than the flow type may be
missing (NaN) in the spreadsheet, hence `Option String`. -/
structure Record where
  year : Nat
  month : Nat
  amount : Int
  flowType : String
  category : Option String
  subCategory : Option String
  tag : Option String
deriving DecidableEq, Repr

/-- Derived column `金额_abs = df["金额"].abs()` (`src/mybill.py` line 45). -/
def amountAbs (r : Record) : Int := |r.amount|

/-- Decimal digit character: code point `48 + d`. -/
def digCh (d : Nat) : Char := Char.ofNat (48 + d)

/-- Zero-padded four-digit decimal rendering (the year part of a pandas
`Period("M")` string, for years below 10000). -/
def pad4 (n : Nat) : String :=
  String.mk [digCh (n / 1000 % 10), digCh (n / 100 % 10), digCh (n / 10 % 10), digCh (n % 10)]

/-- Zero-padded two-digit decimal rendering (the month part of a pandas
`Period("M")` string). -/
def pad2 (n : Nat) : String := String.mk [digCh (n / 10 % 10), digCh (n % 10)]

/-- Derived column `月份 = df["日期"].dt.to_period("M").astype(str)`
(`src/mybill.py` line 44): the zero-padded `YYYY-MM` string. -/
def monthBucket (y m : Nat) : String := pad4 y ++ "-" ++ pad2 m

/-- Month-bucket key of a record (its `月份` cell). -/
def monthKey (r : Record) : String := monthBucket r.year r.month

/-- Income subset `income_df = df[df["收支类型"] == "收入"]`
(`src/mybill.py` line 51). -/
def income_df (df : List Record) : List Record :=
  df.filter (fun r => r.flowType == "收入")

/-- Expense subset `expense_df = df[df["收支类型"] == "支出"]`
(`src/mybill.py` line 52). -/
def expense_df (df : List Record) : List Record :=
  df.filter (fun r => r.flowType == "支出")

/-- Accumulator pass underlying `firstAppearances`: keep each element not yet
seen, remembering the seen ones. -/
def faAux {α : Type} [DecidableEq α] (seen : List α) : List α → List α
  | [] => []
  | x :: xs => if x ∈ seen then faAux seen xs else x :: faAux (x :: seen) xs

/-- Distinct values in first-appearance order: pandas `Series.unique()`
(used at `src/mybill.py` lines 54, 151, 155). -/
def firstAppearances {α : Type} [DecidableEq α] (l : List α) : List α :=
  faAux [] l

/-- Insert a string into a list ahead of the first element not below it
(insertion step of ascending lexicographic sorting). -/
def insertKey (x : String) : List String → List String
  | [] => [x]
  | y :: ys => if lexLtB y.data x.data then y :: insertKey x ys else x :: y :: ys

/-- Ascending lexicographic insertion sort on strings: the order pandas
`groupby(..., sort=True)` (the default) applies to string group keys. -/
def sortKeys : List String → List String
  | [] => []
  | x :: xs => insertKey x (sortKeys xs)

/-- `all_years = sorted(df["年份"].unique())` (`src/mybill.py` line 54). -/
def all_years (df : List Record) : List Nat :=
  List.insertionSort (· ≤ ·) (firstAppearances (df.map (fun r => r.year)))

/-- `latest_year = all_years[-1]` (`src/mybill.py` line 55). Python raises
`IndexError` on an empty list; the failure is modelled as `none`. -/
def latest_year (df : List Record) : Option Nat := (all_years df).getLast?

/-- Default year selection of each year selectbox: `index=len(all_years)-1`
(`src/mybill.py` lines 94-98, 117-121, 186-190), i.e. the element at the last
position, `none` when there is no such element. -/
def defaultYear (df : List Record) : Option Nat :=
  (all_years df)[(all_years df).length - 1]?

/-- Group keys of `data.groupby(names_col)`: the distinct non-missing key
values, sorted ascending (pandas defaults `sort=True`, `dropna=True`). -/
def groupKeys (records : List Record) (key : Record → Option String) : List String :=
  sortKeys (firstAppearances (records.filterMap key))

/-- Sum of `金额_abs` over the rows of one group. -/
def sumFor (records : List Record) (key : Record → Option String) (k : String) : Int :=
  ((records.filter (fun r => key r == some k)).map amountAbs).sum

/-- The grouped dataset `d = data.groupby(names_col)["金额_abs"].sum().reset_index()`
of `create_pie_chart` (`src/mybill.py` line 61): one `(key, sum)` row per
distinct non-missing key, keys sorted ascending, rows with a missing (NaN)
key dropped. -/
def groupAndSum (records : List Record) (key : Record → Option String) :
    List (String × Int) :=
  (groupKeys records key).map (fun k => (k, sumFor records key k))

/-- The monthly trend dataset for one category
(`src/mybill.py` lines 225-230):
`expense_df[expense_df["类别"] == cat].groupby("月份")["金额_abs"].sum().reset_index()`. -/
def groupByMonth (records : List Record) (cat : String) : List (String × Int) :=
  groupAndSum (records.filter (fun r => r.category == some cat))
    (fun r => some (monthKey r))

/-- `sub_opts = expense_df[expense_df["类别"] == main_cat]["二级分类"].unique()`
(`src/mybill.py` line 155): the multiselect options, in first-appearance
order (pandas `unique` keeps a NaN entry, hence `Option String`). -/
def sub_opts (expense : List Record) (cat : String) : List (Option String) :=
  firstAppearances ((expense.filter (fun r => r.category == some cat)).map
    (fun r => r.subCategory))

/-- Sub-category selection after the chosen category changes: the multiselect
at `src/mybill.py` lines 156-161 has `default=list(sub_opts)` computed from
the newly chosen `main_cat`, and the widget re-defaults when its options and
default change, so the previous selection is discarded. -/
def subSelAfterCategoryChange (expense : List Record) (newCat : String)
    (prevSel : List (Option String)) : List (Option String) :=
  sub_opts expense newCat

/-- Detail-view dataset (`src/mybill.py` lines 170-182): under `if sub_sel:`
the expense subset is filtered to the chosen category and to rows whose
sub-category is in the selection (`.isin(sub_sel)`), then grouped-and-summed
by sub-category; with an empty selection no chart dataset is produced
(modelled as `none`). -/
def detailView (expense : List Record) (cat : String)
    (sel : List (Option String)) : Option (List (String × Int)) :=
  if sel.isEmpty then none
  else some (groupAndSum
    (expense.filter (fun r => r.category == some cat && decide (r.subCategory ∈ sel)))
    (fun r => r.subCategory))

/-- Result of one trend panel: either a line-chart dataset with its title or
the `st.info` placeholder message. -/
inductive TrendSpec where
  | line (data : List (String × Int)) (title : String)
  | noData (msg : String)
deriving DecidableEq, Repr

/-- Configured category display order of the trend section
(`src/mybill.py` lines 215-218). -/
def trendOrder : List String :=
  ["吃喝玩乐", "精神需求", "生活用品", "服饰美妆", "自我提升",
   "旅游", "餐饮", "固定支出", "交通", "其他"]

/-- One trend panel (`src/mybill.py` lines 225-256): if the grouped monthly
dataset is empty, show `st.info(f"{cat} 暂无数据")` instead of a chart. -/
def trendView (expense : List Record) (cat : String) : TrendSpec :=
  let d := groupByMonth expense cat
  if d.isEmpty then TrendSpec.noData (cat ++ " 暂无数据") else TrendSpec.line d cat

/-! ### Lexicographic order facts -/

theorem lexLtB_irrefl (l : List Char) : lexLtB l l = false := by
  induction l with
  | nil => rfl
  | cons a as ih => simp [lexLtB, ih]

theorem lexLtB_asymm : ∀ {a b : List Char}, lexLtB a b = true → lexLtB b a = false := by
  intro a
  induction a with
  | nil =>
    intro b h
    cases b with
    | nil => simp [lexLtB] at h
    | cons y ys => simp [lexLtB]
  | cons x xs ih =>
    intro b h
    cases b with
    | nil => simp [lexLtB] at h
    | cons y ys =>
      simp only [lexLtB] at h ⊢
      rcases Nat.lt_trichotomy x.val.toNat y.val.toNat with h1 | h1 | h1
      · rw [if_neg (Nat.lt_asymm h1), if_pos h1]
      · rw [if_neg (by omega), if_neg (by omega)] at h
        rw [if_neg (by omega), if_neg (by omega)]
        exact ih h
      · rw [if_neg (by omega), if_pos h1] at h
        exact absurd h (by simp)

theorem lexLtB_trans : ∀ {a b c : List Char},
    lexLtB a b = true → lexLtB b c = true → lexLtB a c = true := by
  intro a
  induction a with
  | nil =>
    intro b c h1 h2
    cases b with
    | nil => simp [lexLtB] at h1
    | cons y ys =>
      cases c with
      | nil => simp [lexLtB] at h2
      | cons z zs => simp [lexLtB]
  | cons x xs ih =>
    intro b c h1 h2
    cases b with
    | nil => simp [lexLtB] at h1
    | cons y ys =>
      cases c with
      | nil => simp [lexLtB] at h2
      | cons z zs =>
        simp only [lexLtB] at h1 h2 ⊢
        rcases Nat.lt_trichotomy x.val.toNat y.val.toNat with hxy | hxy | hxy
        · rcases Nat.lt_trichotomy y.val.toNat z.val.toNat with hyz | hyz | hyz
          · rw [if_pos (by omega)]
          · rw [if_pos (by omega)]
          · rw [if_neg (by omega), if_pos hyz] at h2
            exact absurd h2 (by simp)
        · rcases Nat.lt_trichotomy y.val.toNat z.val.toNat with hyz | hyz | hyz
          · rw [if_pos (by omega)]
          · rw [if_neg (by omega), if_neg (by omega)] at h1 h2
            rw [if_neg (by omega), if_neg (by omega)]
            exact ih h1 h2
          · rw [if_neg (by omega), if_pos hyz] at h2
            exact absurd h2 (by simp)
        · rw [if_neg (by omega), if_pos hxy] at h1
          exact absurd h1 (by simp)

theorem lexLtB_eq_of_not : ∀ {a b : List Char},
    lexLtB a b = false → lexLtB b a = false → a = b := by
  intro a
  induction a with
  | nil =>
    intro b h1 _
    cases b with
    | nil => rfl
    | cons y ys => simp [lexLtB] at h1
  | cons x xs ih =>
    intro b h1 h2
    cases b with
    | nil => simp [lexLtB] at h2
    | cons y ys =>
      simp only [lexLtB] at h1 h2
      rcases Nat.lt_trichotomy x.val.toNat y.val.toNat with hxy | hxy | hxy
      · rw [if_pos hxy] at h1
        exact absurd h1 (by simp)
      · rw [if_neg (by omega), if_neg (by omega)] at h1 h2
        have hval : x = y := Char.ext (UInt32.ext hxy)
        rw [hval, ih h1 h2]
      · rw [if_pos hxy] at h2
        exact absurd h2 (by simp)

theorem strLe_trans {a b c : String} (h1 : strLe a b) (h2 : strLe b c) : strLe a c := by
  unfold strLe at h1 h2 ⊢
  cases h3 : lexLtB c.data a.data with
  | false => rfl
  | true =>
    cases he : lexLtB b.data c.data with
    | true => exact absurd (lexLtB_trans he h3) (by simp [h1])
    | false =>
      have : c.data = b.data := lexLtB_eq_of_not h2 he
      rw [this] at h3
      exact absurd h3 (by simp [h1])

theorem strLt_of_strLe_ne {a b : String} (h1 : strLe a b) (h2 : a ≠ b) : strLt a b := by
  unfold strLe at h1
  unfold strLt
  cases h3 : lexLtB a.data b.data with
  | true => rfl
  | false => exact absurd (String.ext (lexLtB_eq_of_not h3 h1)) h2

/-! ### Sorting facts -/

theorem insertKey_perm (x : String) : ∀ (l : List String), List.Perm (insertKey x l) (x :: l) := by
  intro l
  induction l with
  | nil => exact List.Perm.refl _
  | cons y ys ih =>
    simp only [insertKey]
    by_cases hb : lexLtB y.data x.data = true
    · rw [if_pos hb]
      exact (ih.cons y).trans (List.Perm.swap x y ys)
    · rw [if_neg hb]

theorem sortKeys_perm : ∀ (l : List String), List.Perm (sortKeys l) l := by
  intro l
  induction l with
  | nil => exact List.Perm.refl _
  | cons x xs ih => exact (insertKey_perm x (sortKeys xs)).trans (ih.cons x)

theorem pairwise_insertKey {x : String} :
    ∀ {l : List String}, l.Pairwise strLe → (insertKey x l).Pairwise strLe := by
  intro l
  induction l with
  | nil => intro _; simp [insertKey]
  | cons y ys ih =>
    intro hp
    rw [List.pairwise_cons] at hp
    obtain ⟨hy, hys⟩ := hp
    simp only [insertKey]
    by_cases hb : lexLtB y.data x.data = true
    · rw [if_pos hb]
      rw [List.pairwise_cons]
      refine ⟨?_, ih hys⟩
      intro b hbmem
      rcases List.mem_cons.mp ((insertKey_perm x ys).mem_iff.mp hbmem) with hbx | hbys
      · rw [hbx]
        exact lexLtB_asymm hb
      · exact hy b hbys
    · rw [if_neg hb]
      rw [List.pairwise_cons]
      refine ⟨?_, List.pairwise_cons.mpr ⟨hy, hys⟩⟩
      intro b hbmem
      have hxy : strLe x y := eq_false_of_ne_true hb
      rcases List.mem_cons.mp hbmem with hby | hbys
      · rw [hby]; exact hxy
      · exact strLe_trans hxy (hy b hbys)

theorem pairwise_sortKeys (l : List String) : (sortKeys l).Pairwise strLe := by
  induction l with
  | nil => simp [sortKeys]
  | cons x xs ih => exact pairwise_insertKey ih

/-! ### First-appearance deduplication facts -/

theorem mem_faAux {α : Type} [DecidableEq α] (a : α) :
    ∀ (l seen : List α), a ∈ faAux seen l ↔ (a ∈ l ∧ a ∉ seen) := by
  intro l
  induction l with
  | nil => intro seen; simp [faAux]
  | cons x xs ih =>
    intro seen
    simp only [faAux]
    by_cases hx : x ∈ seen
    · rw [if_pos hx, ih seen]
      simp only [List.mem_cons]
      constructor
      · intro h
        exact ⟨Or.inr h.1, h.2⟩
      · intro h
        rcases h.1 with hax | haxs
        · exact absurd (hax ▸ hx) h.2
        · exact ⟨haxs, h.2⟩
    · rw [if_neg hx]
      simp only [List.mem_cons, ih (x :: seen), List.mem_cons]
      by_cases hax : a = x
      · simp [hax, hx]
      · simp [hax]

theorem mem_firstAppearances {α : Type} [DecidableEq α] (l : List α) (a : α) :
    a ∈ firstAppearances l ↔ a ∈ l := by
  unfold firstAppearances
  rw [mem_faAux]
  simp

theorem nodup_faAux {α : Type} [DecidableEq α] :
    ∀ (l seen : List α), (faAux seen l).Nodup := by
  intro l
  induction l with
  | nil => intro seen; simp [faAux]
  | cons x xs ih =>
    intro seen
    simp only [faAux]
    by_cases hx : x ∈ seen
    · rw [if_pos hx]
      exact ih seen
    · rw [if_neg hx]
      rw [List.nodup_cons]
      refine ⟨?_, ih (x :: seen)⟩
      intro hmem
      rw [mem_faAux] at hmem
      exact hmem.2 (List.mem_cons_self x seen)

theorem nodup_firstAppearances {α : Type} [DecidableEq α] (l : List α) :
    (firstAppearances l).Nodup :=
  nodup_faAux l []

/-! ### Group-key facts -/

theorem mem_groupKeys {records : List Record} {key : Record → Option String} {k : String} :
    k ∈ groupKeys records key ↔ ∃ r ∈ records, key r = some k := by
  unfold groupKeys
  rw [(sortKeys_perm _).mem_iff, mem_firstAppearances, List.mem_filterMap]

theorem nodup_groupKeys (records : List Record) (key : Record → Option String) :
    (groupKeys records key).Nodup :=
  (sortKeys_perm _).nodup_iff.mpr (nodup_firstAppearances _)

theorem pairwise_strLt_groupKeys (records : List Record) (key : Record → Option String) :
    (groupKeys records key).Pairwise strLt := by
  have hle : (groupKeys records key).Pairwise strLe := pairwise_sortKeys _
  have hne : (groupKeys records key).Pairwise (fun a b => a ≠ b) :=
    nodup_groupKeys records key
  exact (hle.and hne).imp (fun h => strLt_of_strLe_ne h.1 h.2)

theorem groupAndSum_fst (records : List Record) (key : Record → Option String) :
    (groupAndSum records key).map Prod.fst = groupKeys records key := by
  unfold groupAndSum
  rw [List.map_map]
  show (groupKeys records key).map (fun k => k) = groupKeys records key
  simp

theorem pairwise_strLt_groupAndSum (records : List Record) (key : Record → Option String) :
    (groupAndSum records key).Pairwise (fun p q => strLt p.1 q.1) := by
  have h := pairwise_strLt_groupKeys records key
  rw [← groupAndSum_fst records key] at h
  exact (List.pairwise_map).mp h

/-! ### Summation facts -/

theorem sumFor_nil (key : Record → Option String) (k : String) :
    sumFor [] key k = 0 := rfl

theorem sumFor_cons (r : Record) (records : List Record) (key : Record → Option String)
    (k : String) :
    sumFor (r :: records) key k
      = (if key r = some k then amountAbs r else 0) + sumFor records key k := by
  unfold sumFor
  by_cases h : key r = some k
  · rw [if_pos h]
    rw [List.filter_cons_of_pos (by simp [h])]
    simp
  · rw [if_neg h]
    rw [List.filter_cons_of_neg (by simp [h])]
    simp

theorem sum_single_key (k0 : String) (A : Int) :
    ∀ (ks : List String), ks.Nodup → k0 ∈ ks →
      (ks.map (fun k => if k0 = k then A else 0)).sum = A := by
  intro ks
  induction ks with
  | nil => intro _ h; simp at h
  | cons k ks ih =>
    intro hnd hmem
    rw [List.nodup_cons] at hnd
    simp only [List.map_cons, List.sum_cons]
    by_cases hk : k0 = k
    · rw [if_pos hk]
      have hzero : (ks.map (fun k => if k0 = k then A else 0)).sum = 0 := by
        apply List.sum_eq_zero
        intro x hx
        rw [List.mem_map] at hx
        obtain ⟨b, hb, hbx⟩ := hx
        have hne : k0 ≠ b := by
          intro hc
          apply hnd.1
          rw [← hk, hc]
          exact hb
        rw [if_neg hne] at hbx
        exact hbx.symm
      rw [hzero]
      ring
    · rw [if_neg hk]
      have hmem2 : k0 ∈ ks := by
        rcases List.mem_cons.mp hmem with h | h
        · exact absurd h hk
        · exact h
      rw [ih hnd.2 hmem2]
      ring

theorem sum_groupSums (key : Record → Option String) :
    ∀ (records : List Record) (ks : List String), ks.Nodup →
      (∀ r ∈ records, ∀ k, key r = some k → k ∈ ks) →
      (ks.map (fun k => sumFor records key k)).sum
        = ((records.filter (fun r => (key r).isSome)).map amountAbs).sum := by
  intro records
  induction records with
  | nil =>
    intro ks _ _
    simp [sumFor_nil]
  | cons r rs ih =>
    intro ks hnd hcov
    have hstep : (ks.map (fun k => sumFor (r :: rs) key k)).sum
        = (ks.map (fun k => if key r = some k then amountAbs r else 0)).sum
          + (ks.map (fun k => sumFor rs key k)).sum := by
      rw [← List.sum_map_add]
      congr 1
      apply List.map_congr_left
      intro k _
      rw [sumFor_cons]
    rw [hstep]
    rw [ih ks hnd (fun r hr k hk => hcov r (List.mem_cons_of_mem _ hr) k hk)]
    cases hkr : key r with
    | none =>
      have hzero : (ks.map (fun k => if (none : Option String) = some k
          then amountAbs r else 0)).sum = 0 := by
        apply List.sum_eq_zero
        intro x hx
        rw [List.mem_map] at hx
        obtain ⟨b, _, hbx⟩ := hx
        rw [if_neg (by simp)] at hbx
        exact hbx.symm
      rw [hzero]
      rw [List.filter_cons_of_neg (by simp [hkr])]
      ring
    | some k0 =>
      have hmem : k0 ∈ ks := hcov r (List.mem_cons_self r rs) k0 hkr
      have hfirst : (ks.map (fun k => if some k0 = some k then amountAbs r else 0)).sum
          = amountAbs r := by
        have hcongr : ks.map (fun k => if some k0 = some k then amountAbs r else 0)
            = ks.map (fun k => if k0 = k then amountAbs r else 0) := by
          apply List.map_congr_left
          intro k _
          simp
        rw [hcongr]
        exact sum_single_key k0 (amountAbs r) ks hnd hmem
      rw [hfirst]
      rw [List.filter_cons_of_pos (by simp [hkr])]
      simp

theorem groupAndSum_snd_sum (records : List Record) (key : Record → Option String) :
    ((groupAndSum records key).map Prod.snd).sum
      = ((records.filter (fun r => (key r).isSome)).map amountAbs).sum := by
  unfold groupAndSum
  rw [List.map_map]
  have hcomp : (Prod.snd ∘ fun k => (k, sumFor records key k))
      = fun k => sumFor records key k := rfl
  rw [hcomp]
  apply sum_groupSums key records (groupKeys records key) (nodup_groupKeys records key)
  intro r hr k hk
  exact mem_groupKeys.mpr ⟨r, hr, hk⟩

theorem groupAndSum_cons_missing (records : List Record) (key : Record → Option String)
    (r : Record) (h : key r = none) :
    groupAndSum (r :: records) key = groupAndSum records key := by
  have hkeys : groupKeys (r :: records) key = groupKeys records key := by
    unfold groupKeys
    rw [List.filterMap_cons_none h]
  have hsum : ∀ k, sumFor (r :: records) key k = sumFor records key k := by
    intro k
    rw [sumFor_cons]
    rw [if_neg (by simp [h])]
    ring
  unfold groupAndSum
  rw [hkeys]
  apply List.map_congr_left
  intro k _
  rw [hsum]

theorem groupAndSum_eq_nil_iff (records : List Record) (key : Record → Option String) :
    groupAndSum records key = [] ↔ ∀ r ∈ records, key r = none := by
  unfold groupAndSum
  rw [List.map_eq_nil_iff]
  constructor
  · intro h r hr
    cases hk : key r with
    | none => rfl
    | some k =>
      have : k ∈ groupKeys records key := mem_groupKeys.mpr ⟨r, hr, hk⟩
      rw [h] at this
      simp at this
  · intro h
    rw [List.eq_nil_iff_forall_not_mem]
    intro k hk
    obtain ⟨r, hr, hkr⟩ := mem_groupKeys.mp hk
    rw [h r hr] at hkr
    simp at hkr

/-! ### Month-bucket facts -/

theorem digCh_val_mod (n : Nat) : (digCh (n % 10)).val.toNat = 48 + n % 10 := by
  have hlt : n % 10 < 10 := Nat.mod_lt _ (by norm_num)
  unfold digCh
  rw [Char.ofNat, dif_pos (by constructor <;> omega)]
  rfl

theorem monthBucket_data (y m : Nat) :
    (monthBucket y m).data
      = [digCh (y / 1000 % 10), digCh (y / 100 % 10), digCh (y / 10 % 10), digCh (y % 10),
         '-', digCh (m / 10 % 10), digCh (m % 10)] := by
  simp [monthBucket, pad4, pad2, String.data_append]

theorem lexLtB_nil_iff : (lexLtB [] [] = true) ↔ False := by
  simp [lexLtB]

theorem lexLtB_cons_iff (a b : Char) (as bs : List Char) :
    (lexLtB (a :: as) (b :: bs) = true)
      ↔ (a.val.toNat < b.val.toNat ∨ (a.val.toNat = b.val.toNat ∧ lexLtB as bs = true)) := by
  simp only [lexLtB]
  rcases Nat.lt_trichotomy a.val.toNat b.val.toNat with h | h | h
  · rw [if_pos h]
    simp [h]
  · rw [if_neg (by omega), if_neg (by omega)]
    simp [h]
  · rw [if_neg (by omega), if_pos h]
    simp
    omega

theorem monthBucket_strLt_iff (y1 m1 y2 m2 : Nat)
    (hy1 : y1 < 10000) (hy2 : y2 < 10000) (hm1 : m1 ≤ 99) (hm2 : m2 ≤ 99) :
    strLt (monthBucket y1 m1) (monthBucket y2 m2) ↔ (y1 < y2 ∨ (y1 = y2 ∧ m1 < m2)) := by
  have hminus : ('-').val.toNat = 45 := rfl
  unfold strLt
  rw [monthBucket_data, monthBucket_data]
  rw [lexLtB_cons_iff, lexLtB_cons_iff, lexLtB_cons_iff, lexLtB_cons_iff,
    lexLtB_cons_iff, lexLtB_cons_iff, lexLtB_cons_iff, lexLtB_nil_iff]
  simp only [digCh_val_mod, hminus]
  have a1 : y1 / 1000 % 10 = y1 / 1000 := Nat.mod_eq_of_lt (by omega)
  have b1 : y2 / 1000 % 10 = y2 / 1000 := Nat.mod_eq_of_lt (by omega)
  have am : m1 / 10 % 10 = m1 / 10 := Nat.mod_eq_of_lt (by omega)
  have bm : m2 / 10 % 10 = m2 / 10 := Nat.mod_eq_of_lt (by omega)
  rw [a1, b1, am, bm]
  simp only [and_false, or_false, false_or, true_and, lt_self_iff_false]
  omega

/-! ### Year-list facts -/

theorem all_years_sorted (df : List Record) : (all_years df).Pairwise (· ≤ ·) :=
  List.sorted_insertionSort _ _

theorem mem_all_years {df : List Record} {y : Nat} :
    y ∈ all_years df ↔ ∃ r ∈ df, r.year = y := by
  unfold all_years
  rw [(List.perm_insertionSort _ _).mem_iff, mem_firstAppearances, List.mem_map]

theorem nodup_all_years (df : List Record) : (all_years df).Nodup :=
  (List.perm_insertionSort _ _).nodup_iff.mpr (nodup_firstAppearances _)

theorem mem_of_getLast?_eq {l : List Nat} {M : Nat} (h : l.getLast? = some M) : M ∈ l := by
  cases l with
  | nil => simp at h
  | cons a t =>
    have hne : (a :: t) ≠ ([] : List Nat) := by simp
    rw [List.getLast?_eq_getLast _ hne] at h
    have hM : M = (a :: t).getLast hne := by
      injection h with h2
      exact h2.symm
    rw [hM]
    exact List.getLast_mem hne

theorem le_of_sorted_getLast? :
    ∀ (l : List Nat), l.Pairwise (· ≤ ·) → ∀ M, l.getLast? = some M → ∀ y ∈ l, y ≤ M := by
  intro l
  induction l with
  | nil => intro _ M _ y hy; simp at hy
  | cons a t ih =>
    intro hp M hM y hy
    cases t with
    | nil =>
      simp at hM hy
      omega
    | cons b t2 =>
      rw [List.getLast?_cons_cons] at hM
      rw [List.pairwise_cons] at hp
      rcases List.mem_cons.mp hy with hya | hyt
      · have hM2 : M ∈ b :: t2 := mem_of_getLast?_eq hM
        rw [hya]
        exact hp.1 M hM2
      · exact ih hp.2 M hM y hyt

theorem all_years_eq_nil_iff (df : List Record) : all_years df = [] ↔ df = [] := by
  constructor
  · intro h
    cases df with
    | nil => rfl
    | cons r rs =>
      have hmem : r.year ∈ all_years (r :: rs) :=
        mem_all_years.mpr ⟨r, List.mem_cons_self r rs, rfl⟩
      rw [h] at hmem
      simp at hmem
  · intro h
    rw [h]
    rfl

/-! ### Concrete sample records -/

/-- Expense row dated 2024-01, amount 3, category "b", sub-category "x", tag "t". -/
def rec1 : Record := ⟨2024, 1, 3, "支出", some "b", some "x", some "t"⟩

/-- Expense row dated 2024-02, amount -5, category "a", sub-category "y", missing tag. -/
def rec2 : Record := ⟨2024, 2, -5, "支出", some "a", some "y", none⟩

/-- Row dated 2024-03 whose flow-type cell is "不计收支" (neither income nor expense). -/
def recOther : Record := ⟨2024, 3, 7, "不计收支", some "a", none, none⟩

/-! ### Claim theorems -/

/-- C1 (amended): for every record sequence and key column, the output order of
`groupAndSum` is ascending lexicographic order of the group keys (pandas
`groupby` sorts its keys by default), and the keys are exactly the non-missing
key values of the input; it is not, in general, first-appearance order. -/
theorem C1_groupAndSum_keys_sorted (records : List Record) (key : Record → Option String) :
    (groupAndSum records key).Pairwise (fun p q => strLt p.1 q.1)
    ∧ (∀ k : String,
        k ∈ (groupAndSum records key).map Prod.fst ↔ ∃ r ∈ records, key r = some k) := by
  refine ⟨pairwise_strLt_groupAndSum records key, ?_⟩
  intro k
  rw [groupAndSum_fst]
  exact mem_groupKeys

/-- C1 witness: the sorted-key property and key-membership property evaluated
on a concrete two-row input. -/
theorem C1_groupAndSum_keys_sorted_witness :
    (groupAndSum [rec1, rec2] (fun r => r.category)).Pairwise (fun p q => strLt p.1 q.1)
    ∧ ("a" ∈ (groupAndSum [rec1, rec2] (fun r => r.category)).map Prod.fst
        ↔ ∃ r ∈ [rec1, rec2], r.category = some "a") :=
  ⟨(C1_groupAndSum_keys_sorted [rec1, rec2] (fun r => r.category)).1,
   (C1_groupAndSum_keys_sorted [rec1, rec2] (fun r => r.category)).2 "a"⟩

/-- C1 counterexample: with categories appearing in the order "b", "a", the
output of `groupAndSum` is keyed `["a", "b"]` (sorted), not the
first-appearance order `["b", "a"]` the claim asserts. -/
theorem C1_counterexample :
    firstAppearances ([rec1, rec2].filterMap (fun r => r.category)) = ["b", "a"]
    ∧ (groupAndSum [rec1, rec2] (fun r => r.category)).map Prod.fst = ["a", "b"]
    ∧ (groupAndSum [rec1, rec2] (fun r => r.category)).map Prod.fst
        ≠ firstAppearances ([rec1, rec2].filterMap (fun r => r.category)) := by
  decide

/-- C2 (amended): for every non-empty record sequence and key column such that
every record has a present (non-missing) key value, the sum of all group sums
of `groupAndSum` equals the sum of `amountAbs` over the whole input. -/
theorem C2_conservation (records : List Record) (key : Record → Option String)
    (hne : records ≠ []) (hall : ∀ r ∈ records, (key r).isSome = true) :
    ((groupAndSum records key).map Prod.snd).sum = (records.map amountAbs).sum := by
  have _ := hne
  rw [groupAndSum_snd_sum]
  rw [List.filter_eq_self.mpr hall]

/-- C2 witness: the conservation law evaluated on a concrete one-row input
whose tag is present. -/
theorem C2_conservation_witness :
    ((groupAndSum [rec1] (fun r => r.tag)).map Prod.snd).sum
      = ([rec1].map amountAbs).sum :=
  C2_conservation [rec1] (fun r => r.tag) (by decide) (by decide)

/-- C2 counterexample: a non-empty input with one record whose tag is missing;
the record is dropped by `groupAndSum`, so the sum of group sums is 0 while
the input's total `amountAbs` is 5 — the conservation law fails as stated. -/
theorem C2_counterexample :
    ([rec2] : List Record) ≠ []
    ∧ ((groupAndSum [rec2] (fun r => r.tag)).map Prod.snd).sum = 0
    ∧ ([rec2].map amountAbs).sum = 5
    ∧ ((groupAndSum [rec2] (fun r => r.tag)).map Prod.snd).sum
        ≠ ([rec2].map amountAbs).sum := by
  decide

/-- C3 (amended): the income and expense subsets are disjoint order-preserving
subsequences; a record of the input lands in the income subset iff its
flow-type is "收入" and in the expense subset iff its flow-type is "支出";
the subset lengths add up to the number of records whose flow-type is one of
those two values — records with any other flow-type value land in neither
subset, so the two subsets need not exhaust the input. -/
theorem C3_partition (df : List Record) :
    (∀ r ∈ df, (r ∈ income_df df ↔ r.flowType = "收入")
        ∧ (r ∈ expense_df df ↔ r.flowType = "支出"))
    ∧ (∀ r : Record, ¬ (r ∈ income_df df ∧ r ∈ expense_df df))
    ∧ (income_df df).Sublist df
    ∧ (expense_df df).Sublist df
    ∧ (income_df df).length + (expense_df df).length
        = (df.filter (fun r => r.flowType == "收入" || r.flowType == "支出")).length := by
  refine ⟨?_, ?_, List.filter_sublist df, List.filter_sublist df, ?_⟩
  · intro r hr
    constructor
    · unfold income_df
      rw [List.mem_filter]
      simp [hr]
    · unfold expense_df
      rw [List.mem_filter]
      simp [hr]
  · intro r hcon
    obtain ⟨h1, h2⟩ := hcon
    unfold income_df at h1
    unfold expense_df at h2
    rw [List.mem_filter] at h1 h2
    have e1 : r.flowType = "收入" := by simpa using h1.2
    have e2 : r.flowType = "支出" := by simpa using h2.2
    rw [e1] at e2
    exact absurd e2 (by decide)
  · unfold income_df expense_df
    induction df with
    | nil => rfl
    | cons r rs ih =>
      rw [List.filter_cons, List.filter_cons, List.filter_cons]
      by_cases h1 : r.flowType = "收入"
      · rw [if_pos (by simp [h1]), if_neg (by simp [h1]), if_pos (by simp [h1])]
        simp only [List.length_cons]
        omega
      · by_cases h2 : r.flowType = "支出"
        · rw [if_neg (by simp [h1]), if_pos (by simp [h2]), if_pos (by simp [h2])]
          simp only [List.length_cons]
          omega
        · rw [if_neg (by simp [h1]), if_neg (by simp [h2]), if_neg (by simp [h1, h2])]
          exact ih

/-- C3 witness: the membership and length properties evaluated on a concrete
one-row expense input. -/
theorem C3_partition_witness :
    (rec1 ∈ expense_df [rec1] ↔ rec1.flowType = "支出")
    ∧ (income_df [rec1]).length + (expense_df [rec1]).length
        = ([rec1].filter (fun r => r.flowType == "收入" || r.flowType == "支出")).length :=
  ⟨((C3_partition [rec1]).1 rec1 (by decide)).2, (C3_partition [rec1]).2.2.2.2⟩

/-- C3 counterexample: a one-row input whose flow-type is "不计收支"; the row
appears in neither subset and the subset lengths do not sum to the input
length, so the partition is not exhaustive as claimed. -/
theorem C3_counterexample :
    income_df [recOther] = []
    ∧ expense_df [recOther] = []
    ∧ recOther ∉ income_df [recOther]
    ∧ recOther ∉ expense_df [recOther]
    ∧ (income_df [recOther]).length + (expense_df [recOther]).length
        ≠ ([recOther] : List Record).length := by
  decide

/-- C4: for every record sequence, category and key value, the output of
`groupByMonth` is sorted strictly ascending by the month-bucket string;
the month bucket is the zero-padded `YYYY-MM` string, whose lexicographic
order coincides with chronological order for valid dates; in particular the
buckets of 2024-01 and 2024-12 are "2024-01" and "2024-12" and the former
sorts first. -/
theorem C4_groupByMonth_sorted (records : List Record) (cat : String) :
    (groupByMonth records cat).Pairwise (fun p q => strLt p.1 q.1)
    ∧ (∀ y1 m1 y2 m2 : Nat, y1 < 10000 → y2 < 10000 → 1 ≤ m1 → m1 ≤ 12 → 1 ≤ m2 → m2 ≤ 12 →
        (strLt (monthBucket y1 m1) (monthBucket y2 m2) ↔ (y1 < y2 ∨ (y1 = y2 ∧ m1 < m2))))
    ∧ monthBucket 2024 1 = "2024-01"
    ∧ monthBucket 2024 12 = "2024-12"
    ∧ strLt (monthBucket 2024 1) (monthBucket 2024 12) := by
  refine ⟨?_, ?_, by decide, by decide, by decide⟩
  · unfold groupByMonth
    exact pairwise_strLt_groupAndSum _ _
  · intro y1 m1 y2 m2 hy1 hy2 _ hm1 _ hm2
    exact monthBucket_strLt_iff y1 m1 y2 m2 hy1 hy2 (by omega) (by omega)

/-- C4 witness: the chronological-order equivalence applied at the concrete
dates 2024-01 and 2024-12. -/
theorem C4_groupByMonth_sorted_witness :
    strLt (monthBucket 2024 1) (monthBucket 2024 12)
      ↔ (2024 < 2024 ∨ (2024 = 2024 ∧ 1 < 12)) :=
  (C4_groupByMonth_sorted [] "餐饮").2.1 2024 1 2024 12 (by decide) (by decide)
    (by decide) (by decide) (by decide) (by decide)

/-- C5: with an empty sub-category selection `detailView` produces no chart
dataset (the `if sub_sel:` guard — a placeholder outcome, not an exception,
since the function is total); with a non-empty selection it produces the
group-and-sum by sub-category of the expense rows whose category is the
chosen one and whose sub-category is in the selection. -/
theorem C5_detailView_empty_selection (expense : List Record) (cat : String) :
    detailView expense cat [] = none
    ∧ (∀ sel : List (Option String), sel ≠ [] →
        ∃ d, detailView expense cat sel = some d
          ∧ ∀ k : String, k ∈ d.map Prod.fst ↔
              (some k ∈ sel ∧ ∃ r ∈ expense, r.category = some cat ∧ r.subCategory = some k)) := by
  constructor
  · rfl
  · intro sel hsel
    refine ⟨groupAndSum
      (expense.filter (fun r => r.category == some cat && decide (r.subCategory ∈ sel)))
      (fun r => r.subCategory), ?_, ?_⟩
    · unfold detailView
      rw [if_neg (by simpa using hsel)]
    · intro k
      rw [groupAndSum_fst, mem_groupKeys]
      constructor
      · rintro ⟨r, hr, hk⟩
        rw [List.mem_filter] at hr
        obtain ⟨hre, hcond⟩ := hr
        simp only [Bool.and_eq_true, beq_iff_eq, decide_eq_true_eq] at hcond
        refine ⟨?_, r, hre, hcond.1, hk⟩
        rw [← hk]
        exact hcond.2
      · rintro ⟨hksel, r, hre, hcat, hsub⟩
        refine ⟨r, ?_, hsub⟩
        rw [List.mem_filter]
        refine ⟨hre, ?_⟩
        simp only [Bool.and_eq_true, beq_iff_eq, decide_eq_true_eq]
        refine ⟨hcat, ?_⟩
        rw [hsub]
        exact hksel

/-- C5 witness: the empty-selection guard and the non-empty-selection dataset
evaluated on a concrete one-row expense input. -/
theorem C5_detailView_empty_selection_witness :
    detailView [rec1] "b" [] = none
    ∧ ∃ d, detailView [rec1] "b" [some "x"] = some d
        ∧ ∀ k : String, k ∈ d.map Prod.fst ↔
            (some k ∈ [some "x"]
              ∧ ∃ r ∈ [rec1], r.category = some "b" ∧ r.subCategory = some k) :=
  ⟨(C5_detailView_empty_selection [rec1] "b").1,
   (C5_detailView_empty_selection [rec1] "b").2 [some "x"] (by decide)⟩

/-- C6: the year computation of the partition stage fails exactly on an empty
dataset: `latest_year` (the `all_years[-1]` lookup, whose Python failure is
modelled as `none`) is `none` iff the input has zero records. -/
theorem C6_empty_dataset_fails (df : List Record) :
    (latest_year df = none ↔ df = []) ∧ (df = [] → all_years df = []) := by
  constructor
  · unfold latest_year
    rw [List.getLast?_eq_none_iff]
    exact all_years_eq_nil_iff df
  · intro h
    rw [h]
    rfl

/-- C6 witness: the failure evaluated at the empty dataset. -/
theorem C6_empty_dataset_fails_witness :
    latest_year ([] : List Record) = none ∧ all_years ([] : List Record) = [] :=
  ⟨(C6_empty_dataset_fails []).1.mpr rfl, (C6_empty_dataset_fails []).2 rfl⟩

/-- C7: for every non-empty dataset, `all_years` is the strictly ascending
list of exactly the distinct years present, `latest_year` is their maximum,
and the construction-time default year selection of the year selectboxes
(index `len(all_years)-1`) equals `latest_year`. -/
theorem C7_year_defaults (df : List Record) (hne : df ≠ []) :
    (all_years df).Pairwise (· < ·)
    ∧ (∀ y, y ∈ all_years df ↔ ∃ r ∈ df, r.year = y)
    ∧ ∃ M, latest_year df = some M
        ∧ (∃ r ∈ df, r.year = M)
        ∧ (∀ r ∈ df, r.year ≤ M)
        ∧ defaultYear df = some M := by
  have hys : (all_years df).Pairwise (· ≤ ·) := all_years_sorted df
  have hnd : (all_years df).Pairwise (fun a b => a ≠ b) := nodup_all_years df
  refine ⟨(hys.and hnd).imp (fun h => Nat.lt_of_le_of_ne h.1 h.2),
    fun y => mem_all_years, ?_⟩
  have hynn : all_years df ≠ [] := by
    intro h
    exact hne ((all_years_eq_nil_iff df).mp h)
  obtain ⟨M, hM⟩ : ∃ M, (all_years df).getLast? = some M := by
    cases hg : (all_years df).getLast? with
    | none => exact absurd (List.getLast?_eq_none_iff.mp hg) hynn
    | some M => exact ⟨M, rfl⟩
  refine ⟨M, hM, mem_all_years.mp (mem_of_getLast?_eq hM), ?_, ?_⟩
  · intro r hr
    exact le_of_sorted_getLast? _ hys M hM r.year (mem_all_years.mpr ⟨r, hr, rfl⟩)
  · unfold defaultYear
    rw [← List.getLast?_eq_getElem?]
    exact hM

/-- C7 witness: the year defaults evaluated on a concrete one-row dataset. -/
theorem C7_year_defaults_witness :
    (all_years [rec1]).Pairwise (· < ·)
    ∧ (∀ y, y ∈ all_years [rec1] ↔ ∃ r ∈ [rec1], r.year = y)
    ∧ ∃ M, latest_year [rec1] = some M
        ∧ (∃ r ∈ [rec1], r.year = M)
        ∧ (∀ r ∈ [rec1], r.year ≤ M)
        ∧ defaultYear [rec1] = some M :=
  C7_year_defaults [rec1] (by decide)

/-- C8: after the chosen category changes, the sub-category selection is the
full set of sub-category values present under the newly chosen category in
the expense subset (each exactly once), and it does not depend on the
previously selected sub-categories in any way. -/
theorem C8_subcategory_reset (expense : List Record) (newCat : String)
    (prevSel : List (Option String)) :
    subSelAfterCategoryChange expense newCat prevSel = sub_opts expense newCat
    ∧ (∀ s : Option String, s ∈ subSelAfterCategoryChange expense newCat prevSel ↔
        ∃ r ∈ expense, r.category = some newCat ∧ r.subCategory = s)
    ∧ (subSelAfterCategoryChange expense newCat prevSel).Nodup
    ∧ (∀ otherPrev : List (Option String),
        subSelAfterCategoryChange expense newCat otherPrev
          = subSelAfterCategoryChange expense newCat prevSel) := by
  refine ⟨rfl, ?_, nodup_firstAppearances _, fun _ => rfl⟩
  intro s
  unfold subSelAfterCategoryChange sub_opts
  rw [mem_firstAppearances, List.mem_map]
  constructor
  · rintro ⟨r, hr, hs⟩
    rw [List.mem_filter] at hr
    exact ⟨r, hr.1, by simpa using hr.2, hs⟩
  · rintro ⟨r, hre, hcat, hs⟩
    exact ⟨r, List.mem_filter.mpr ⟨hre, by simpa using hcat⟩, hs⟩

/-- C8 witness: the reset selection evaluated on a concrete one-row expense
subset, from an arbitrary stale previous selection. -/
theorem C8_subcategory_reset_witness :
    subSelAfterCategoryChange [rec1] "b" [some "stale"] = sub_opts [rec1] "b"
    ∧ (some "x" ∈ subSelAfterCategoryChange [rec1] "b" [some "stale"] ↔
        ∃ r ∈ [rec1], r.category = some "b" ∧ r.subCategory = some "x") :=
  ⟨(C8_subcategory_reset [rec1] "b" [some "stale"]).1,
   (C8_subcategory_reset [rec1] "b" [some "stale"]).2.1 (some "x")⟩

/-- C9: for every category of the configured trend display ordering, when the
filtered-and-grouped monthly dataset is empty the trend panel is the
`st.info` placeholder carrying the category name and the "暂无数据" (no data)
marker, not a chart; and the panel is that placeholder exactly when the
expense subset has no record of that category. -/
theorem C9_trend_no_data (expense : List Record) (cat : String) (hcat : cat ∈ trendOrder) :
    (groupByMonth expense cat = [] →
      trendView expense cat = TrendSpec.noData (cat ++ " 暂无数据"))
    ∧ (trendView expense cat = TrendSpec.noData (cat ++ " 暂无数据")
        ↔ ¬ ∃ r ∈ expense, r.category = some cat) := by
  have _ := hcat
  have hiff : groupByMonth expense cat = [] ↔ ¬ ∃ r ∈ expense, r.category = some cat := by
    unfold groupByMonth
    rw [groupAndSum_eq_nil_iff]
    constructor
    · rintro h ⟨r, hr, hcatr⟩
      have hrf : r ∈ expense.filter (fun r => r.category == some cat) :=
        List.mem_filter.mpr ⟨hr, by simpa using hcatr⟩
      exact absurd (h r hrf) (by simp)
    · intro h r hr
      exfalso
      rw [List.mem_filter] at hr
      exact h ⟨r, hr.1, by simpa using hr.2⟩
  constructor
  · intro h
    simp [trendView, h]
  · constructor
    · intro h
      by_cases hd : groupByMonth expense cat = []
      · exact hiff.mp hd
      · exfalso
        unfold trendView at h
        rw [if_neg (by simpa using hd)] at h
        exact absurd h (by simp)
    · intro h
      simp [trendView, hiff.mpr h]

/-- C9 witness: the placeholder evaluated for the configured category "餐饮"
on an empty expense subset. -/
theorem C9_trend_no_data_witness :
    trendView [] "餐饮" = TrendSpec.noData "餐饮 暂无数据" :=
  (C9_trend_no_data [] "餐饮" (by decide)).1 (by decide)

/-- C10: `groupAndSum` silently drops records whose key value is missing:
prepending such a record changes nothing, the total of the group sums counts
only records with a present key, and every output group key is a value
actually present in the input (no placeholder group for missing keys); the
function is total, so no error is raised. -/
theorem C10_missing_keys_dropped (records : List Record) (key : Record → Option String) :
    (∀ r : Record, key r = none →
      groupAndSum (r :: records) key = groupAndSum records key)
    ∧ ((groupAndSum records key).map Prod.snd).sum
        = ((records.filter (fun r => (key r).isSome)).map amountAbs).sum
    ∧ (∀ k : String,
        k ∈ (groupAndSum records key).map Prod.fst ↔ ∃ r ∈ records, key r = some k) := by
  refine ⟨fun r h => groupAndSum_cons_missing records key r h,
    groupAndSum_snd_sum records key, ?_⟩
  intro k
  rw [groupAndSum_fst]
  exact mem_groupKeys

/-- C10 witness: dropping a missing-tag record evaluated on concrete input:
prepending `rec2` (missing tag) to `[rec1]` leaves the tag grouping unchanged. -/
theorem C10_missing_keys_dropped_witness :
    groupAndSum (rec2 :: [rec1]) (fun r => r.tag) = groupAndSum [rec1] (fun r => r.tag) :=
  (C10_missing_keys_dropped [rec1] (fun r => r.tag)).1 rec2 (by decide)
